import Mathlib

/-!
Shallow embedding of the two-peer file synchroniser (`peer.py`, `main.py`).

Modelling conventions:
* Byte strings (paths, wire data) are `List Nat`; Python's `str.encode` /
  `bytes.decode` are the identity under this representation.
* The filesystem is an abstract read-only view `FS` (directory test, mtime,
  size, content, existence, and the `os.walk` enumeration of the share
  directory); mutations performed by the code are emitted as `Event`s.
* The socket is a script: a list of chunks, one per `recv` call; `send` and
  `sendfile` are emitted as `Event.sendBytes`.
* Python exceptions are `Option`/explicit result constructors: `none` or a
  `crashed` constructor marks an uncaught exception, and caught exceptions
  (`struct.error`, `FileNotFoundError`, `JSONDecodeError`, `ConnectionError`,
  `OSError` in bootstrap) follow the `try`/`except` structure of the source.
-/

namespace PeerSync

/-- A byte string: paths and wire data. -/
abbrev Bytes := List Nat

/-- One `recv` result from the connection. -/
abbrev Chunk := List Nat

/-- The value stored for one path in `sync_record.json`:
`{"ownership": bool, "mtime": number?}` (`mtime` absent until the transfer
completes). -/
structure FileRec where
  ownership : Bool
  mtime : Option Nat
  deriving Repr, DecidableEq

/-- The in-memory record `self.record`: a Python dict from path to `FileRec`,
modelled as an association list (insertion order preserving, keys unique by
construction of the operations below). -/
abbrev RecordMap := List (Bytes × FileRec)

/-- Abstract read-only filesystem view: the `os` primitives the code calls. -/
structure FS where
  /-- Source `os.path.isdir path` -/
  isDir : Bytes → Bool
  /-- Source `os.path.getmtime path` = `os.stat(path).st_mtime` -/
  mtime : Bytes → Nat
  /-- Source `os.path.getsize path` -/
  size : Bytes → Nat
  /-- the byte content of the file at `path` -/
  content : Bytes → Bytes
  /-- Source `os.path.exists path` -/
  pathExists : Bytes → Bool
  /-- the paths enumerated by `os.walk(share_dir, topdown=False)` in the order
  the `get_unsent_files` loop visits them (`files` extended with `dirs`,
  joined with their root) -/
  walk : List Bytes

/-- Dict lookup `path in self.record` / `self.record[path]`. -/
def lookupRec (m : RecordMap) (p : Bytes) : Option FileRec :=
  match m with
  | [] => none
  | (q, r) :: rest => if q = p then some r else lookupRec rest p

/-- Dict assignment `self.record[path] = v`: replaces in place, appends if new. -/
def setRec (m : RecordMap) (p : Bytes) (v : FileRec) : RecordMap :=
  match m with
  | [] => [(p, v)]
  | (q, r) :: rest => if q = p then (q, v) :: rest else (q, r) :: setRec rest p v

/-- Dict removal `self.record.pop(path, None)`. -/
def popRec (m : RecordMap) (p : Bytes) : RecordMap :=
  match m with
  | [] => []
  | (q, r) :: rest => if q = p then rest else (q, r) :: popRec rest p

/-- Source `Recorder.__is_unsent` (peer.py lines 32–43): decides whether `path` must
be (re)sent. -/
def is_unsent (fs : FS) (m : RecordMap) (p : Bytes) : Bool :=
  if ¬ fs.isDir p then
    match lookupRec m p with
    | none => true                  -- new added files
    | some r =>
      match r.mtime with
      | some t => decide (fs.mtime p ≠ t)   -- modified files
      | none => r.ownership         -- broken transmission: owner resends
  else
    false

/-- Source `Recorder.set_ownership`: upsert a record holding only the ownership flag. -/
def set_ownership (m : RecordMap) (p : Bytes) (v : Bool) : RecordMap :=
  setRec m p ⟨v, none⟩

/-- Source `Recorder.add_rec`: `self.record[path].update({"mtime": ...})`.
`none` models the uncaught `KeyError` when no record exists for `path`. -/
def add_rec (fs : FS) (m : RecordMap) (p : Bytes) : Option RecordMap :=
  match lookupRec m p with
  | none => none
  | some r => some (setRec m p ⟨r.ownership, some (fs.mtime p)⟩)

/-- Source `Recorder.del_rec`: `self.record.pop(path, None)`. -/
def del_rec (m : RecordMap) (p : Bytes) : RecordMap :=
  popRec m p

/-- Source `Recorder.get_unsent_files`: walk the share directory and keep the paths
`__is_unsent` selects. -/
def get_unsent_files (fs : FS) (m : RecordMap) : List Bytes :=
  fs.walk.filter (fun p => is_unsent fs m p)

/-- The spec's rule for `IsUnsent` on a non-directory path, stated as the
three-way disjunction of §4.1(a)–(c). -/
def IsUnsentSpec (fs : FS) (m : RecordMap) (p : Bytes) : Prop :=
  lookupRec m p = none ∨
  (∃ r t, lookupRec m p = some r ∧ r.mtime = some t ∧ fs.mtime p ≠ t) ∨
  (∃ r, lookupRec m p = some r ∧ r.mtime = none ∧ r.ownership = true)

/-- Observable actions of the peer: recorder mutations, socket writes, and
filesystem writes, in program order. -/
inductive Event where
  /-- Source `recorder.set_ownership(path, v)` was called -/
  | setOwnership (path : Bytes) (v : Bool)
  /-- Source `recorder.add_rec(path)` was called -/
  | addRecord (path : Bytes)
  /-- Source `recorder.del_rec(path)` was called -/
  | delRecord (path : Bytes)
  /-- Source `conn_sock.send(b)` or `conn_sock.sendfile` streamed the bytes `b` -/
  | sendBytes (b : Bytes)
  /-- Source `os.mkdir(dir)` was called -/
  | mkdir (dir : Bytes)
  /-- Source `open(path, "wb")` was called -/
  | openWrite (path : Bytes)
  /-- Source `conn_sock.recv(n)` was called in the payload loop -/
  | recvRequest (n : Nat)
  /-- Source `f.write(b)` wrote the chunk `b` to the destination file -/
  | fileWrite (b : Bytes)
  deriving Repr, DecidableEq

/-- Big-endian 4-byte encoding of one `!I` field of `struct.pack`. -/
def u32be (n : Nat) : Bytes :=
  [n / 2 ^ 24 % 256, n / 2 ^ 16 % 256, n / 2 ^ 8 % 256, n % 256]

/-- Source `self.header.pack(a, b)` for `Struct("!II")`: 8 bytes, big-endian;
`struct.error` (modelled `none`) if a field exceeds the uint32 range. -/
def packHeader (a b : Nat) : Option Bytes :=
  if a < 2 ^ 32 ∧ b < 2 ^ 32 then some (u32be a ++ u32be b) else none

/-- Source `self.header.unpack(buf)` for `Struct("!II")`: requires exactly 8 bytes,
`struct.error` (modelled `none`) otherwise. -/
def unpackHeader (b : Bytes) : Option (Nat × Nat) :=
  match b with
  | [a0, a1, a2, a3, b0, b1, b2, b3] =>
    some (a0 * 2 ^ 24 + a1 * 2 ^ 16 + a2 * 2 ^ 8 + a3,
          b0 * 2 ^ 24 + b1 * 2 ^ 16 + b2 * 2 ^ 8 + b3)
  | _ => none

/-- The `for path in unsent_files` loop body of `Peer.__send` (peer.py
lines 142–155), iterated over the remaining paths. `none` models an uncaught
exception (`struct.error` from `pack`, or `KeyError` from `add_rec`). -/
def sendLoop (fs : FS) (m : RecordMap) : List Bytes → Option (RecordMap × List Event)
  | [] => some (m, [])
  | path :: rest =>
    let m1 := set_ownership m path true
    let file_size := fs.size path
    match packHeader path.length file_size with
    | none => none
    | some header =>
      match add_rec fs m1 path with
      | none => none
      | some m2 =>
        match sendLoop fs m2 rest with
        | none => none
        | some (m3, evs) =>
          some (m3, Event.setOwnership path true ::
                    Event.sendBytes (header ++ path) ::
                    Event.sendBytes (fs.content path) ::
                    Event.addRecord path :: evs)

/-- Source `Peer.__send` (peer.py lines 138–158): send every unsent file, then the
`(0, 0)` terminator header. -/
def send (fs : FS) (m : RecordMap) : Option (RecordMap × List Event) :=
  let unsent_files := get_unsent_files fs m
  match sendLoop fs m unsent_files with
  | none => none
  | some (m', evs) =>
    some (m', evs ++ [Event.sendBytes (u32be 0 ++ u32be 0)])

/-- The events the spec prescribes for one sent file: mark ownership, emit the
frame (header, path, content), record completion. -/
def frameEvents (fs : FS) (path : Bytes) : List Event :=
  [Event.setOwnership path true,
   Event.sendBytes (u32be path.length ++ u32be (fs.size path) ++ path),
   Event.sendBytes (fs.content path),
   Event.addRecord path]

/-- Source `path.rsplit(sep="/", maxsplit=1)[0]` on a byte string: everything before
the last `/` (byte 47), or the whole string when no `/` occurs. -/
def rsplitParent (p : Bytes) : Bytes :=
  if p.contains 47 then ((p.reverse.dropWhile (fun c => c != 47)).drop 1).reverse
  else p

/-- The payload loop of `Peer.__receive` (peer.py lines 183–190):
`while received_bytes < file_size`, each iteration calls
`recv(min(file_size - received_bytes, receive_buffer_size))` and writes the
returned chunk to the destination file. Consumes scripted `recv` results;
`none` models the script running out while bytes are still owed (the blocking
`recv` never returns, so the loop does not complete). On completion returns
the final `received_bytes`, the request/write events, and the number of script
entries consumed. -/
def recvPayload (bufsize fsize : Nat) : List Chunk → Nat → Option (Nat × List Event × Nat)
  | [], recd => if recd < fsize then none else some (recd, [], 0)
  | c :: rest, recd =>
    if recd < fsize then
      match recvPayload bufsize fsize rest (recd + c.length) with
      | none => none
      | some (r, evs, k) =>
        some (r, Event.recvRequest (min (fsize - recd) bufsize) ::
                 Event.fileWrite c :: evs, k + 1)
    else
      some (recd, [], 0)

/-- The responses a real socket can give the payload loop: while bytes are
owed, each `recv` returns at most the `min(file_size - received, bufsize)`
bytes it was asked for. -/
def wfChunks (bufsize fsize : Nat) : Nat → List Chunk → Bool
  | _, [] => true
  | recd, c :: rest =>
    if recd < fsize then
      c.length ≤ min (fsize - recd) bufsize && wfChunks bufsize fsize (recd + c.length) rest
    else
      true

/-- Total number of payload bytes a script offers. -/
def chunkBytes : List Chunk → Nat
  | [] => 0
  | c :: rest => c.length + chunkBytes rest

/-- Total number of bytes written to the destination file in a trace. -/
def writtenLen : List Event → Nat
  | [] => 0
  | Event.fileWrite b :: rest => b.length + writtenLen rest
  | _ :: rest => writtenLen rest

/-- Result of `Peer.__receive` on a script: `done` is a normal return (loop
ended via a terminator or a caught `struct.error`), `blocked` means a blocking
`recv` had no scripted data left (the call never returns), `crashed` models an
uncaught exception. Each carries the recorder state, the events so far, and
(for `done`) the unconsumed remainder of the script. -/
inductive RecvResult where
  | done (m : RecordMap) (evs : List Event) (rest : List Chunk)
  | blocked (m : RecordMap) (evs : List Event)
  | crashed (m : RecordMap) (evs : List Event)
  deriving Repr, DecidableEq

/-- Prepend earlier events to a receive result. -/
def RecvResult.withEvents (pre : List Event) : RecvResult → RecvResult
  | done m evs rest => done m (pre ++ evs) rest
  | blocked m evs => blocked m (pre ++ evs)
  | crashed m evs => crashed m (pre ++ evs)

/-- Source `Peer.__receive` (peer.py lines 160–194): the `while more_files` loop over
a script of `recv` results. Each script entry is one `recv` return value; an
empty chunk at a header position models the peer closing the connection
(`recv` returns no bytes and `unpack` raises `struct.error`, which the
`except` clause turns into the end of the loop). `crashed` marks the uncaught
`KeyError` that `add_rec` would raise with no record present (shown
unreachable here because `set_ownership` precedes it). -/
def receiveLoop (fs : FS) (bufsize : Nat) (m : RecordMap) (chunks : List Chunk) : RecvResult :=
  match chunks with
  | [] => RecvResult.blocked m []            -- recv of the header blocks forever
  | h :: rest =>
    match unpackHeader h with
    | none => RecvResult.done m [] rest      -- struct.error caught: more_files = False
    | some (path_size, file_size) =>
      if path_size = 0 ∧ file_size = 0 then
        RecvResult.done m [] rest            -- terminator
      else
        match rest with
        | [] => RecvResult.blocked m []      -- recv of the path blocks forever
        | pchunk :: rest2 =>
          let path := pchunk                 -- .decode() is the identity here
          let m1 := del_rec m path
          let m2 := set_ownership m1 path false
          let dirEvs := if fs.pathExists (rsplitParent path) then ([] : List Event)
                        else [Event.mkdir (rsplitParent path)]
          let preEvs := Event.delRecord path :: Event.setOwnership path false ::
                        dirEvs ++ [Event.openWrite path]
          match recvPayload bufsize file_size rest2 0 with
          | none => RecvResult.blocked m2 preEvs
          | some (_, pevs, consumed) =>
            match add_rec fs m2 path with
            | none => RecvResult.crashed m2 (preEvs ++ pevs)
            | some m3 =>
              (receiveLoop fs bufsize m3 (rest2.drop consumed)).withEvents
                (preEvs ++ pevs ++ [Event.addRecord path])
termination_by chunks.length
decreasing_by
  simp only [List.length_cons, List.length_drop]
  omega

/-- Concrete filesystem view used by witnesses: one plain file `f` (byte 102)
of one byte, one directory `d` (byte 100). -/
def fsW : FS where
  isDir p := p = [100]
  mtime _ := 5
  size _ := 1
  content _ := [7]
  pathExists _ := true
  walk := [[102]]

/-- Connection-manager state: `self.mode` (0 initial, 1 client, 2 server),
the identity of `self.sock`, the identity of `self.conn_sock`, and a counter
minting fresh socket identities. -/
structure ConnState where
  mode : Nat
  sockId : Nat
  connSock : Option Nat
  fresh : Nat
  deriving Repr, DecidableEq

/-- Network-facing actions of the connection manager. -/
inductive NetEvent where
  /-- Source `sock.connect((peer_ip, port))` on socket `sock`, succeeding or raising -/
  | connectAttempt (sock : Nat) (ok : Bool)
  /-- Source `sock.bind` + `sock.listen(backlog)` + `sock.accept` on `sock`:
  `some true` accepts, `some false` raises (caught), `none` blocks forever -/
  | bindListenAccept (sock : Nat) (backlog : Nat) (res : Option Bool)
  /-- Source `self.sock = socket.socket(...)` minted a fresh socket -/
  | newSocket (sock : Nat)
  /-- the bare `self.sock.accept()` of `resume` in server mode -/
  | plainAccept (sock : Nat)
  deriving Repr, DecidableEq

/-- What the network holds in store for one bind/listen/accept attempt. -/
inductive AcceptEnv where
  /-- a peer connects while we wait in `accept` -/
  | incoming
  /-- bind/listen/accept raises `OSError` -/
  | oserr
  /-- no error is raised and no peer ever connects -/
  | quiet
  deriving Repr, DecidableEq

/-- Whether the code ever configures a socket timeout: no call to
`settimeout` or `setblocking` appears anywhere in peer.py or main.py, so
every `accept` waits without bound. -/
def settimeoutCalled : Bool := false

/-- Outcome of the wait inside `__run_as_server` under `env`: `some true` is
an accepted connection, `some false` a raised (and caught) error — which a
quiet network could only produce through a configured timeout — and `none` an
`accept` that never returns. -/
def acceptOutcome (env : AcceptEnv) : Option Bool :=
  match env with
  | .incoming => some true
  | .oserr => some false
  | .quiet => if settimeoutCalled then some false else none

/-- Source `Peer.__run_as_client` (peer.py lines 109–119): on success `conn_sock` is
the original socket itself and mode becomes 1; `ConnectionError`/`OSError` is
caught and leaves the state unchanged. -/
def run_as_client (ok : Bool) (st : ConnState) : ConnState × List NetEvent :=
  if ok then
    ({ st with mode := 1, connSock := some st.sockId },
     [NetEvent.connectAttempt st.sockId true])
  else
    (st, [NetEvent.connectAttempt st.sockId false])

/-- Source `Peer.__run_as_server` (peer.py lines 121–130): bind the configured port,
listen with backlog 2, block in `accept`; on success mode becomes 2 and the
accepted connection is a fresh socket; `OSError`/`socket.timeout` is caught
and leaves the state unchanged; a first component of `none` models an
`accept` that never returns. -/
def run_as_server (env : AcceptEnv) (st : ConnState) : Option ConnState × List NetEvent :=
  match acceptOutcome env with
  | some true =>
    (some { st with mode := 2, connSock := some st.fresh, fresh := st.fresh + 1 },
     [NetEvent.bindListenAccept st.sockId 2 (some true)])
  | some false =>
    (some st, [NetEvent.bindListenAccept st.sockId 2 (some false)])
  | none =>
    (none, [NetEvent.bindListenAccept st.sockId 2 none])

/-- Result of running `__start` or `resume` against scripted network
outcomes: a live connection, a process stuck forever inside a blocking
`accept`, or the script (not the program) running out. -/
inductive StartOutcome where
  | connected (st : ConnState) (evs : List NetEvent)
  | blockedInAccept (st : ConnState) (evs : List NetEvent)
  | outOfScript (evs : List NetEvent)
  deriving Repr, DecidableEq

/-- Prepend earlier events to a bootstrap outcome. -/
def StartOutcome.withEvents (pre : List NetEvent) : StartOutcome → StartOutcome
  | connected st evs => connected st (pre ++ evs)
  | blockedInAccept st evs => blockedInAccept st (pre ++ evs)
  | outOfScript evs => outOfScript (pre ++ evs)

/-- Source `Peer.__start` (peer.py lines 132–136): `while self.mode == 0`, try the
client role, then — when that did not set mode 1 — the server role. `conns`
scripts the successive connect outcomes, `accs` the successive
bind/listen/accept outcomes. -/
def start (st : ConnState) (conns : List Bool) (accs : List AcceptEnv) : StartOutcome :=
  if st.mode ≠ 0 then .connected st []
  else
    match conns with
    | [] => .outOfScript []
    | c :: conns' =>
      let p1 := run_as_client c st
      if p1.1.mode ≠ 1 then
        match accs with
        | [] => .outOfScript p1.2
        | a :: accs' =>
          match run_as_server a p1.1 with
          | (none, evs) => .blockedInAccept p1.1 (p1.2 ++ evs)
          | (some st2, evs) => (start st2 conns' accs').withEvents (p1.2 ++ evs)
      else
        (start p1.1 conns' accs).withEvents p1.2

/-- Source `Peer.resume` (peer.py lines 196–209): a server re-accepts on the same
still-listening socket (a bare blocking `accept` with no `try`, modelled as
eventually returning a fresh accepted connection); any other mode makes a
fresh socket, makes one server attempt, and when that attempt leaves mode ≠ 2
resets mode to 0 and reruns `__start`. -/
def resume (st : ConnState) (conns : List Bool) (accs : List AcceptEnv) : StartOutcome :=
  if st.mode = 2 then
    .connected { st with connSock := some st.fresh, fresh := st.fresh + 1 }
      [NetEvent.plainAccept st.sockId]
  else
    let st1 := { st with sockId := st.fresh, fresh := st.fresh + 1 }
    match accs with
    | [] => .outOfScript [NetEvent.newSocket st1.sockId]
    | a :: accs' =>
      match run_as_server a st1 with
      | (none, evs) => .blockedInAccept st1 (NetEvent.newSocket st1.sockId :: evs)
      | (some st2, evs) =>
        if st2.mode ≠ 2 then
          (start { st2 with mode := 0 } conns accs').withEvents
            (NetEvent.newSocket st1.sockId :: evs)
        else
          .connected st2 (NetEvent.newSocket st1.sockId :: evs)

/-- Python exception classes relevant to the sync loop: `connectionError`
stands for `ConnectionError` and its subclasses (reset, refused, broken
pipe, aborted); nothing else is caught by `except ConnectionError`. -/
inductive PyExn where
  | connectionError
  | structError
  | keyError
  | otherError
  deriving Repr, DecidableEq

/-- Outcomes of the fallible calls one `while True` iteration of `Peer.sync`
(peer.py lines 211–232) can make, scripted by the environment. -/
structure SyncEnv where
  /-- Source `self.conn_sock.recv(1).decode()` -/
  cmdResult : Except PyExn Bytes
  /-- client: `self.conn_sock.send(b"s")` -/
  sendSResult : Except PyExn Unit
  /-- client: `self.conn_sock.send(b"r")` -/
  sendRResult : Except PyExn Unit
  /-- Source `self.__send()` -/
  sendResult : Except PyExn Unit
  /-- Source `self.__receive()` -/
  recvResult : Except PyExn Unit

/-- The `try` body of one server-mode iteration: read one command byte and
dispatch (`s` = 115 sends, `r` = 114 receives, anything else does nothing). -/
def serverBody (env : SyncEnv) : Except PyExn Unit :=
  match env.cmdResult with
  | .error e => .error e
  | .ok cmd =>
    if cmd = [115] then env.sendResult
    else if cmd = [114] then env.recvResult
    else .ok ()

/-- The `try` body of one client-mode iteration: send `s`, receive, send `r`,
send files. -/
def clientBody (env : SyncEnv) : Except PyExn Unit :=
  match env.sendSResult with
  | .error e => .error e
  | .ok _ =>
    match env.recvResult with
    | .error e => .error e
    | .ok _ =>
      match env.sendRResult with
      | .error e => .error e
      | .ok _ => env.sendResult

/-- Fate of one iteration of the `while True` loop of `Peer.sync`:
`looped r` continues the loop (`r` records whether `resume` was invoked by the
`except ConnectionError` handler); `crashed e` is an exception escaping the
loop and ending the process. -/
inductive SyncOutcome where
  | looped (resumed : Bool)
  | crashed (e : PyExn)
  deriving Repr, DecidableEq

/-- One iteration of `Peer.sync`: the mode-appropriate body runs under
`except ConnectionError`, which calls `resume` and continues; any other
exception escapes. -/
def syncIter (mode : Nat) (env : SyncEnv) : SyncOutcome :=
  let body := if mode = 2 then serverBody env
              else if mode = 1 then clientBody env
              else Except.ok ()
  match body with
  | .ok _ => .looped false
  | .error e =>
    if e = PyExn.connectionError then .looped true else .crashed e

/-- Result of the server-mode dispatch with the calls spelled out over the
concrete embeddings of `__send` and `__receive`. -/
inductive DispatchResult where
  | sent (r : Option (RecordMap × List Event))
  | received (r : RecvResult)
  | noop (m : RecordMap)
  deriving Repr, DecidableEq

/-- The server-mode dispatch of `Peer.sync` (peer.py lines 214–219): `'s'`
runs `__send`, `'r'` runs `__receive`, any other decoded command — including
the empty string an orderly-closed connection yields — runs nothing. -/
def serverDispatch (fs : FS) (bufsize : Nat) (m : RecordMap) (chunks : List Chunk)
    (cmd : Bytes) : DispatchResult :=
  if cmd = [115] then .sent (send fs m)
  else if cmd = [114] then .received (receiveLoop fs bufsize m chunks)
  else .noop m

/-- State of `sync_record.json` at `Recorder` construction time. -/
inductive RecordFileState where
  /-- Source `open` raises `FileNotFoundError` -/
  | missing
  /-- the file exists but `json.load` raises `JSONDecodeError` -/
  | invalidJson
  /-- the file parses to the mapping `m` -/
  | valid (m : RecordMap)
  deriving Repr, DecidableEq

/-- Source `Recorder.__init__` (peer.py lines 22–30): the constructed in-memory
record (`none` would be an uncaught exception) paired with whether the record
file was written — the constructor only ever opens it for reading, and both
`FileNotFoundError` and `JSONDecodeError` are caught and answered with the
empty record. -/
def recorderInit (s : RecordFileState) : Option RecordMap × Bool :=
  match s with
  | .missing => (some [], false)
  | .invalidJson => (some [], false)
  | .valid m => (some m, false)

/-- Claim C1: for every non-directory path, `is_unsent` returns true iff (a) no
record exists, or (b) a record with `mtime` present whose stored mtime differs
from the filesystem's current one, or (c) a record with `mtime` absent whose
stored ownership flag is true — and in case (c) the stored ownership value is
returned verbatim; for every directory path, `is_unsent` returns false. -/
theorem c1_is_unsent_spec (fs : FS) (m : RecordMap) (p : Bytes) :
    (fs.isDir p = false → (is_unsent fs m p = true ↔ IsUnsentSpec fs m p)) ∧
    (fs.isDir p = false → ∀ r, lookupRec m p = some r → r.mtime = none →
      is_unsent fs m p = r.ownership) ∧
    (fs.isDir p = true → is_unsent fs m p = false) := by
  refine ⟨?_, ?_, ?_⟩
  · intro hdir
    unfold is_unsent IsUnsentSpec
    simp only [hdir, Bool.false_eq_true, not_false_eq_true, if_true]
    cases hl : lookupRec m p with
    | none => simp
    | some r =>
      cases hmt : r.mtime with
      | none =>
        simp only [hl, hmt]
        constructor
        · intro hown
          exact Or.inr (Or.inr ⟨r, rfl, hmt, hown⟩)
        · rintro (h | ⟨r', t, hr', ht, _⟩ | ⟨r', hr', hmt', hown⟩)
          · exact absurd h (by simp)
          · rw [Option.some_inj] at hr'; subst hr'; rw [hmt] at ht; exact absurd ht (by simp)
          · rw [Option.some_inj] at hr'; subst hr'; exact hown
      | some t =>
        simp only [hl, hmt]
        constructor
        · intro hne
          exact Or.inr (Or.inl ⟨r, t, rfl, hmt, of_decide_eq_true hne⟩)
        · rintro (h | ⟨r', t', hr', ht', hne⟩ | ⟨r', hr', hmt', _⟩)
          · exact absurd h (by simp)
          · rw [Option.some_inj] at hr'; subst hr'; rw [hmt] at ht'
            rw [Option.some_inj] at ht'; subst ht'; exact decide_eq_true hne
          · rw [Option.some_inj] at hr'; subst hr'; rw [hmt] at hmt'; exact absurd hmt' (by simp)
  · intro hdir r hl hmt
    unfold is_unsent
    simp [hdir, hl, hmt]
  · intro hdir
    unfold is_unsent
    simp [hdir]

/-- Witness for C1 at concrete inputs: a recorded file whose stored mtime
matches the filesystem is not unsent; an ownership-only record returns the
stored flag; a directory is never unsent. -/
theorem c1_is_unsent_spec_witness :
    (is_unsent fsW [([102], ⟨true, some 5⟩)] [102] = true ↔
      IsUnsentSpec fsW [([102], ⟨true, some 5⟩)] [102]) ∧
    is_unsent fsW [([102], ⟨true, none⟩)] [102] = true ∧
    is_unsent fsW [([100], ⟨true, none⟩)] [100] = false := by
  refine ⟨(c1_is_unsent_spec fsW [([102], ⟨true, some 5⟩)] [102]).1 (by decide), ?_, ?_⟩
  · exact (c1_is_unsent_spec fsW [([102], ⟨true, none⟩)] [102]).2.1 (by decide)
      ⟨true, none⟩ (by decide) rfl
  · exact (c1_is_unsent_spec fsW [([100], ⟨true, none⟩)] [100]).2.2 (by decide)

theorem lookupRec_setRec (m : RecordMap) (p : Bytes) (v : FileRec) :
    lookupRec (setRec m p v) p = some v := by
  induction m with
  | nil => simp [setRec, lookupRec]
  | cons hd tl ih =>
    obtain ⟨q, r⟩ := hd
    by_cases hq : q = p
    · simp [setRec, lookupRec, hq]
    · simp [setRec, lookupRec, hq, ih]

theorem sendLoop_trace (fs : FS) (ps : List Bytes) :
    ∀ m : RecordMap, (∀ p ∈ ps, p.length < 2 ^ 32 ∧ fs.size p < 2 ^ 32) →
    ∃ m', sendLoop fs m ps = some (m', ps.flatMap (frameEvents fs)) := by
  induction ps with
  | nil => intro m _; exact ⟨m, rfl⟩
  | cons path rest ih =>
    intro m hbound
    obtain ⟨hlen, hsize⟩ := hbound path (List.mem_cons_self path rest)
    have hpack : packHeader path.length (fs.size path) =
        some (u32be path.length ++ u32be (fs.size path)) := by
      unfold packHeader
      rw [if_pos ⟨hlen, hsize⟩]
    have hadd : add_rec fs (set_ownership m path true) path =
        some (setRec (set_ownership m path true) path ⟨true, some (fs.mtime path)⟩) := by
      unfold add_rec set_ownership
      rw [lookupRec_setRec]
    obtain ⟨m', hm'⟩ := ih (setRec (set_ownership m path true) path
        ⟨true, some (fs.mtime path)⟩)
      (fun p hp => hbound p (List.mem_cons_of_mem _ hp))
    refine ⟨m', ?_⟩
    unfold sendLoop
    simp only [hpack, hadd, hm', frameEvents, List.flatMap_cons, List.append_assoc]
    rfl

/-- Claim C2: `__send` computes `get_unsent_files` and, for each returned path
in order, first calls `set_ownership(path, true)`, then emits one frame
(8-byte big-endian header of path length and file size, then the path bytes,
then the full file content), then calls `add_rec(path)`; after the last path
it emits exactly one terminator header with both fields zero. -/
theorem c2_send_trace (fs : FS) (m : RecordMap)
    (hbound : ∀ p ∈ get_unsent_files fs m, p.length < 2 ^ 32 ∧ fs.size p < 2 ^ 32) :
    ∃ m', send fs m = some (m',
      (get_unsent_files fs m).flatMap (frameEvents fs) ++
        [Event.sendBytes (u32be 0 ++ u32be 0)]) := by
  obtain ⟨m', hm'⟩ := sendLoop_trace fs (get_unsent_files fs m) m hbound
  refine ⟨m', ?_⟩
  simp only [send, hm']

/-- Witness for C2 at a concrete input: with one new file in the share walk,
`send` emits exactly its frame events followed by the zero terminator. -/
theorem c2_send_trace_witness :
    ∃ m', send fsW [] = some (m',
      (get_unsent_files fsW []).flatMap (frameEvents fsW) ++
        [Event.sendBytes (u32be 0 ++ u32be 0)]) :=
  c2_send_trace fsW [] (by decide)

theorem recvPayload_reaches (bufsize fsize : Nat) :
    ∀ (chunks : List Chunk) (recd0 recd : Nat) (evs : List Event) (k : Nat),
      recd0 ≤ fsize → wfChunks bufsize fsize recd0 chunks = true →
      recvPayload bufsize fsize chunks recd0 = some (recd, evs, k) → recd = fsize := by
  intro chunks
  induction chunks with
  | nil =>
    intro recd0 recd evs k hle hwf hp
    unfold recvPayload at hp
    by_cases hlt : recd0 < fsize
    · rw [if_pos hlt] at hp; exact absurd hp (by simp)
    · rw [if_neg hlt] at hp
      simp only [Option.some_inj, Prod.mk.injEq] at hp
      omega
  | cons c rest ih =>
    intro recd0 recd evs k hle hwf hp
    unfold recvPayload at hp
    by_cases hlt : recd0 < fsize
    · unfold wfChunks at hwf
      rw [if_pos hlt] at hwf
      rw [Bool.and_eq_true, decide_eq_true_eq] at hwf
      obtain ⟨hlen, hwf'⟩ := hwf
      rw [if_pos hlt] at hp
      cases hrec : recvPayload bufsize fsize rest (recd0 + c.length) with
      | none => rw [hrec] at hp; exact absurd hp (by simp)
      | some trip =>
        obtain ⟨r, evs', k'⟩ := trip
        rw [hrec] at hp
        simp only [Option.some_inj, Prod.mk.injEq] at hp
        have hle' : recd0 + c.length ≤ fsize := by omega
        have := ih (recd0 + c.length) r evs' k' hle' hwf' hrec
        omega
    · rw [if_neg hlt] at hp
      simp only [Option.some_inj, Prod.mk.injEq] at hp
      omega

theorem recvPayload_written (bufsize fsize : Nat) :
    ∀ (chunks : List Chunk) (recd0 recd : Nat) (evs : List Event) (k : Nat),
      recvPayload bufsize fsize chunks recd0 = some (recd, evs, k) →
      recd0 + writtenLen evs = recd := by
  intro chunks
  induction chunks with
  | nil =>
    intro recd0 recd evs k hp
    unfold recvPayload at hp
    by_cases hlt : recd0 < fsize
    · rw [if_pos hlt] at hp; exact absurd hp (by simp)
    · rw [if_neg hlt] at hp
      simp only [Option.some_inj, Prod.mk.injEq] at hp
      obtain ⟨h1, h2, _⟩ := hp
      subst h1; subst h2
      simp [writtenLen]
  | cons c rest ih =>
    intro recd0 recd evs k hp
    unfold recvPayload at hp
    by_cases hlt : recd0 < fsize
    · rw [if_pos hlt] at hp
      cases hrec : recvPayload bufsize fsize rest (recd0 + c.length) with
      | none => rw [hrec] at hp; exact absurd hp (by simp)
      | some trip =>
        obtain ⟨r, evs', k'⟩ := trip
        rw [hrec] at hp
        simp only [Option.some_inj, Prod.mk.injEq] at hp
        obtain ⟨h1, h2, _⟩ := hp
        subst h1; subst h2
        have := ih (recd0 + c.length) r evs' k' hrec
        simp only [writtenLen]
        omega
    · rw [if_neg hlt] at hp
      simp only [Option.some_inj, Prod.mk.injEq] at hp
      obtain ⟨h1, h2, _⟩ := hp
      subst h1; subst h2
      simp [writtenLen]

theorem recvPayload_requests (bufsize fsize : Nat) :
    ∀ (chunks : List Chunk) (recd0 recd : Nat) (evs : List Event) (k : Nat),
      recvPayload bufsize fsize chunks recd0 = some (recd, evs, k) →
      ∀ n, Event.recvRequest n ∈ evs → n ≤ bufsize := by
  intro chunks
  induction chunks with
  | nil =>
    intro recd0 recd evs k hp n hn
    unfold recvPayload at hp
    by_cases hlt : recd0 < fsize
    · rw [if_pos hlt] at hp; exact absurd hp (by simp)
    · rw [if_neg hlt] at hp
      simp only [Option.some_inj, Prod.mk.injEq] at hp
      obtain ⟨_, h2, _⟩ := hp
      subst h2
      exact absurd hn (by simp)
  | cons c rest ih =>
    intro recd0 recd evs k hp n hn
    unfold recvPayload at hp
    by_cases hlt : recd0 < fsize
    · rw [if_pos hlt] at hp
      cases hrec : recvPayload bufsize fsize rest (recd0 + c.length) with
      | none => rw [hrec] at hp; exact absurd hp (by simp)
      | some trip =>
        obtain ⟨r, evs', k'⟩ := trip
        rw [hrec] at hp
        simp only [Option.some_inj, Prod.mk.injEq] at hp
        obtain ⟨_, h2, _⟩ := hp
        subst h2
        rcases List.mem_cons.mp hn with heq | hn'
        · rw [Event.recvRequest.injEq] at heq
          subst heq
          exact Nat.min_le_right _ _
        · rcases List.mem_cons.mp hn' with heq | hn''
          · exact absurd heq (by simp)
          · exact ih (recd0 + c.length) r evs' k' hrec n hn''
    · rw [if_neg hlt] at hp
      simp only [Option.some_inj, Prod.mk.injEq] at hp
      obtain ⟨_, h2, _⟩ := hp
      subst h2
      exact absurd hn (by simp)

theorem recvPayload_starved (bufsize fsize : Nat) :
    ∀ (chunks : List Chunk) (recd0 : Nat),
      recd0 + chunkBytes chunks < fsize →
      recvPayload bufsize fsize chunks recd0 = none := by
  intro chunks
  induction chunks with
  | nil =>
    intro recd0 hlt
    unfold recvPayload
    rw [if_pos (by unfold chunkBytes at hlt; omega)]
  | cons c rest ih =>
    intro recd0 hlt
    unfold chunkBytes at hlt
    unfold recvPayload
    rw [if_pos (by omega), ih (recd0 + c.length) (by omega)]

/-- Claim C5: the receive loop stops exactly at a header with both fields
zero, returning without touching the recorder, reading no further script data
(the remainder is handed back untouched), and a header that fails to parse
(for instance the empty read of a connection closed at a header boundary)
produces the very same normal termination — an implicit terminator, not a
distinct error result; a header that parses to anything other than `(0, 0)`
never produces such a no-action stop. -/
theorem c5_receive_stop (fs : FS) (bufsize : Nat) (m : RecordMap)
    (h : Chunk) (rest : List Chunk) :
    (unpackHeader h = some (0, 0) →
      receiveLoop fs bufsize m (h :: rest) = RecvResult.done m [] rest) ∧
    (unpackHeader h = none →
      receiveLoop fs bufsize m (h :: rest) = RecvResult.done m [] rest) ∧
    (∀ path_size file_size, unpackHeader h = some (path_size, file_size) →
      ¬(path_size = 0 ∧ file_size = 0) →
      ∀ m' rest', receiveLoop fs bufsize m (h :: rest) ≠ RecvResult.done m' [] rest') := by
  refine ⟨?_, ?_, ?_⟩
  · intro hh
    rw [receiveLoop]
    simp [hh]
  · intro hh
    rw [receiveLoop]
    simp [hh]
  · intro path_size file_size hh hnz m' rest' heq
    cases rest with
    | nil =>
      rw [receiveLoop] at heq
      simp [hh, if_neg hnz] at heq
    | cons pchunk rest2 =>
      cases hrp : recvPayload bufsize file_size rest2 0 with
      | none =>
        rw [receiveLoop] at heq
        simp [hh, if_neg hnz, hrp] at heq
      | some trip =>
        obtain ⟨r, pevs, k⟩ := trip
        cases hadd : add_rec fs (set_ownership (del_rec m pchunk) pchunk false) pchunk with
        | none =>
          rw [receiveLoop] at heq
          simp [hh, if_neg hnz, hrp, hadd] at heq
        | some m3 =>
          rw [receiveLoop] at heq
          simp only [hh, if_neg hnz, hrp, hadd] at heq
          cases hrl : receiveLoop fs bufsize m3 (rest2.drop k) with
          | done a b c => rw [hrl] at heq; simp [RecvResult.withEvents] at heq
          | blocked a b => rw [hrl] at heq; simp [RecvResult.withEvents] at heq
          | crashed a b => rw [hrl] at heq; simp [RecvResult.withEvents] at heq

/-- Witness for C5 at concrete inputs: the `(0, 0)` header stops the loop with
two unread chunks left; the empty read of a closed connection stops it the
same way. -/
theorem c5_receive_stop_witness :
    receiveLoop fsW 2 [] ([0, 0, 0, 0, 0, 0, 0, 0] :: [[1], [2]]) =
      RecvResult.done [] [] [[1], [2]] ∧
    receiveLoop fsW 2 [] ([] :: [[1], [2]]) = RecvResult.done [] [] [[1], [2]] ∧
    receiveLoop fsW 2 [] ([0, 0, 0, 1, 0, 0, 0, 0] :: [[102]]) ≠
      RecvResult.done [] [] [] :=
  ⟨(c5_receive_stop fsW 2 [] [0, 0, 0, 0, 0, 0, 0, 0] [[1], [2]]).1 rfl,
   (c5_receive_stop fsW 2 [] [] [[1], [2]]).2.1 rfl,
   (c5_receive_stop fsW 2 [] [0, 0, 0, 1, 0, 0, 0, 0] [[102]]).2.2 1 0 rfl
     (by decide) [] []⟩

/-- Claim C3: on a non-terminator frame the receive loop reads the declared
path bytes, then calls `del_rec(path)` followed by
`set_ownership(path, false)`, creates the immediate parent directory (one
`mkdir` of `rsplit`'s first component) when it does not exist, opens the
destination file and reads exactly `file_size` payload bytes from the channel
in chunks requested at no more than the receive-buffer size, writing each to
the file, and finally calls `add_rec(path)` — after which the loop continues
on the remaining script with the updated recorder. -/
theorem c3_receive_frame (fs : FS) (bufsize : Nat) (m : RecordMap)
    (h pchunk : Chunk) (rest2 : List Chunk) (path_size file_size : Nat)
    (recd : Nat) (pevs : List Event) (consumed : Nat)
    (hh : unpackHeader h = some (path_size, file_size))
    (hnz : ¬(path_size = 0 ∧ file_size = 0))
    (hpath : pchunk.length = path_size)
    (hp : recvPayload bufsize file_size rest2 0 = some (recd, pevs, consumed))
    (hwf : wfChunks bufsize file_size 0 rest2 = true) :
    ∃ m3, add_rec fs (set_ownership (del_rec m pchunk) pchunk false) pchunk = some m3 ∧
      receiveLoop fs bufsize m (h :: pchunk :: rest2) =
        (receiveLoop fs bufsize m3 (rest2.drop consumed)).withEvents
          (Event.delRecord pchunk :: Event.setOwnership pchunk false ::
            ((if fs.pathExists (rsplitParent pchunk) then ([] : List Event)
              else [Event.mkdir (rsplitParent pchunk)]) ++ [Event.openWrite pchunk]) ++
            (pevs ++ [Event.addRecord pchunk])) ∧
      recd = file_size ∧ writtenLen pevs = file_size ∧
      (∀ n, Event.recvRequest n ∈ pevs → n ≤ bufsize) := by
  have hadd : add_rec fs (set_ownership (del_rec m pchunk) pchunk false) pchunk =
      some (setRec (set_ownership (del_rec m pchunk) pchunk false) pchunk
        ⟨false, some (fs.mtime pchunk)⟩) := by
    unfold add_rec set_ownership
    rw [lookupRec_setRec]
  have hreach : recd = file_size :=
    recvPayload_reaches bufsize file_size rest2 0 recd pevs consumed
      (Nat.zero_le _) hwf hp
  have hwrit : writtenLen pevs = file_size := by
    have := recvPayload_written bufsize file_size rest2 0 recd pevs consumed hp
    omega
  refine ⟨_, hadd, ?_, hreach, hwrit,
    recvPayload_requests bufsize file_size rest2 0 recd pevs consumed hp⟩
  rw [receiveLoop]
  simp only [hh, if_neg hnz, hp, hadd]
  congr 1
  simp [List.append_assoc]

/-- Witness for C3 at a concrete input: a frame for the one-byte path `f`
inside directory `s/` carrying three payload bytes delivered in two chunks
through a two-byte receive buffer. -/
theorem c3_receive_frame_witness :
    ∃ m3, add_rec fsW (set_ownership (del_rec [] [115, 47, 102]) [115, 47, 102] false)
        [115, 47, 102] = some m3 ∧
      receiveLoop fsW 2 []
          ([0, 0, 0, 3, 0, 0, 0, 3] :: [115, 47, 102] :: [[9, 8], [7]]) =
        (receiveLoop fsW 2 m3 ([[9, 8], [7]].drop 2)).withEvents
          (Event.delRecord [115, 47, 102] :: Event.setOwnership [115, 47, 102] false ::
            ((if fsW.pathExists (rsplitParent [115, 47, 102]) then ([] : List Event)
              else [Event.mkdir (rsplitParent [115, 47, 102])]) ++
              [Event.openWrite [115, 47, 102]]) ++
            ([Event.recvRequest 2, Event.fileWrite [9, 8],
              Event.recvRequest 1, Event.fileWrite [7]] ++
              [Event.addRecord [115, 47, 102]])) ∧
      3 = 3 ∧
      writtenLen [Event.recvRequest 2, Event.fileWrite [9, 8],
        Event.recvRequest 1, Event.fileWrite [7]] = 3 ∧
      (∀ n, Event.recvRequest n ∈
        [Event.recvRequest 2, Event.fileWrite [9, 8],
         Event.recvRequest 1, Event.fileWrite [7]] → n ≤ 2) :=
  c3_receive_frame fsW 2 [] [0, 0, 0, 3, 0, 0, 0, 3] [115, 47, 102] [[9, 8], [7]]
    3 3 3 [Event.recvRequest 2, Event.fileWrite [9, 8],
           Event.recvRequest 1, Event.fileWrite [7]] 2
    (by decide) (by decide) (by decide) (by decide) (by decide)

/-- Claim C10: the payload loop terminates exactly when the accumulated
received count reaches the declared `file_size`: with socket-shaped responses
the count at completion equals `file_size`; a zero-byte read while bytes are
owed neither ends the loop nor raises — the loop simply recurs on the rest of
the stream with the count unchanged; and a stream whose total bytes fall short
of `file_size` never lets the loop complete. -/
theorem c10_payload_termination (bufsize fsize : Nat) :
    (∀ (chunks : List Chunk) (recd0 recd : Nat) (evs : List Event) (k : Nat),
      recd0 ≤ fsize → wfChunks bufsize fsize recd0 chunks = true →
      recvPayload bufsize fsize chunks recd0 = some (recd, evs, k) → recd = fsize) ∧
    (∀ (rest : List Chunk) (recd0 : Nat), recd0 < fsize →
      recvPayload bufsize fsize (([] : Chunk) :: rest) recd0 =
        (recvPayload bufsize fsize rest recd0).map
          (fun r => (r.1, Event.recvRequest (min (fsize - recd0) bufsize) ::
                          Event.fileWrite [] :: r.2.1, r.2.2 + 1))) ∧
    (∀ (chunks : List Chunk) (recd0 : Nat), recd0 + chunkBytes chunks < fsize →
      recvPayload bufsize fsize chunks recd0 = none) := by
  refine ⟨recvPayload_reaches bufsize fsize, ?_, recvPayload_starved bufsize fsize⟩
  intro rest recd0 hlt
  rw [recvPayload]
  rw [if_pos hlt]
  have : recd0 + List.length ([] : Chunk) = recd0 := rfl
  rw [this]
  cases recvPayload bufsize fsize rest recd0 with
  | none => rfl
  | some trip => obtain ⟨r, evs, k⟩ := trip; rfl

/-- Witness for C10 at concrete inputs: a stream reaching the three declared
bytes completes with exactly three received; a zero-byte read mid-payload is
re-requested rather than ending the loop; a two-byte stream for a three-byte
payload never completes. -/
theorem c10_payload_termination_witness :
    (3 : Nat) = 3 ∧
    recvPayload 2 3 (([] : Chunk) :: [[9, 8], [7]]) 0 =
      (recvPayload 2 3 [[9, 8], [7]] 0).map
        (fun r => (r.1, Event.recvRequest (min (3 - 0) 2) ::
                        Event.fileWrite [] :: r.2.1, r.2.2 + 1)) ∧
    recvPayload 2 3 [[9, 8]] 0 = none :=
  ⟨(c10_payload_termination 2 3).1 [[9, 8], [7]] 0 3
      [Event.recvRequest 2, Event.fileWrite [9, 8],
       Event.recvRequest 1, Event.fileWrite [7]] 2
      (by decide) (by decide) (by decide),
   (c10_payload_termination 2 3).2.1 [[9, 8], [7]] 0 (by decide),
   (c10_payload_termination 2 3).2.2 [[9, 8]] 0 (by decide)⟩

/-- Claim C4: `resume` in server mode re-accepts on the very same
still-listening socket, keeping mode 2 and the old socket identity; in client
mode it mints a fresh socket and makes exactly one bind/listen/accept attempt
— when the attempt accepts, the peer is the new server; when it raises, mode
is reset to 0 and the full `__start` bootstrap is rerun from scratch. -/
theorem c4_resume_state_machine (st : ConnState) (conns : List Bool)
    (accs : List AcceptEnv) :
    (st.mode = 2 → resume st conns accs =
      StartOutcome.connected { st with connSock := some st.fresh, fresh := st.fresh + 1 }
        [NetEvent.plainAccept st.sockId]) ∧
    (st.mode = 1 → ∀ accs', accs = AcceptEnv.incoming :: accs' →
      resume st conns accs =
        StartOutcome.connected ⟨2, st.fresh, some (st.fresh + 1), st.fresh + 1 + 1⟩
          [NetEvent.newSocket st.fresh,
           NetEvent.bindListenAccept st.fresh 2 (some true)]) ∧
    (st.mode = 1 → ∀ a accs', accs = a :: accs' → acceptOutcome a = some false →
      resume st conns accs =
        (start ⟨0, st.fresh, st.connSock, st.fresh + 1⟩ conns accs').withEvents
          [NetEvent.newSocket st.fresh,
           NetEvent.bindListenAccept st.fresh 2 (some false)]) := by
  refine ⟨?_, ?_, ?_⟩
  · intro h2
    unfold resume
    rw [if_pos h2]
  · intro h1 accs' ha
    subst ha
    simp [resume, run_as_server, acceptOutcome, h1]
  · intro h1 a accs' ha hout
    subst ha
    simp [resume, run_as_server, hout, h1]

/-- Witness for C4 at concrete states: a server re-accepts on socket 5 and
stays in mode 2; a client whose single fallback accept succeeds becomes the
server on a fresh socket; a client whose single fallback accept raises falls
back to a full bootstrap with mode reset to 0. -/
theorem c4_resume_state_machine_witness :
    resume ⟨2, 5, some 7, 10⟩ [] [] =
      StartOutcome.connected ⟨2, 5, some 10, 11⟩ [NetEvent.plainAccept 5] ∧
    resume ⟨1, 5, some 5, 10⟩ [] [AcceptEnv.incoming] =
      StartOutcome.connected ⟨2, 10, some 11, 12⟩
        [NetEvent.newSocket 10, NetEvent.bindListenAccept 10 2 (some true)] ∧
    resume ⟨1, 5, some 5, 10⟩ [true] [AcceptEnv.oserr] =
      (start ⟨0, 10, some 5, 11⟩ [true] []).withEvents
        [NetEvent.newSocket 10, NetEvent.bindListenAccept 10 2 (some false)] :=
  ⟨(c4_resume_state_machine ⟨2, 5, some 7, 10⟩ [] []).1 rfl,
   (c4_resume_state_machine ⟨1, 5, some 5, 10⟩ [] [AcceptEnv.incoming]).2.1 rfl
     [] rfl,
   (c4_resume_state_machine ⟨1, 5, some 5, 10⟩ [true] [AcceptEnv.oserr]).2.2 rfl
     AcceptEnv.oserr [] rfl rfl⟩

/-- Claim C6 (code bug): after a failed outbound connect the peer does bind
the port, listen with backlog 2 and block in `accept` — but no timeout is
ever configured (`settimeout` is never called), so on a quiet network the
wait is unbounded and the bootstrap loop never repeats: the process is stuck
in `accept` forever. The second equation shows the part of the claim the code
does honour: a raised `OSError` makes the loop repeat from the client
connect. -/
theorem c6_accept_wait_unbounded :
    settimeoutCalled = false ∧
    start ⟨0, 5, none, 10⟩ [false] [AcceptEnv.quiet] =
      StartOutcome.blockedInAccept ⟨0, 5, none, 10⟩
        [NetEvent.connectAttempt 5 false, NetEvent.bindListenAccept 5 2 none] ∧
    start ⟨0, 5, none, 10⟩ [false, false] [AcceptEnv.oserr, AcceptEnv.quiet] =
      StartOutcome.blockedInAccept ⟨0, 5, none, 10⟩
        [NetEvent.connectAttempt 5 false, NetEvent.bindListenAccept 5 2 (some false),
         NetEvent.connectAttempt 5 false, NetEvent.bindListenAccept 5 2 none] := by
  refine ⟨rfl, by decide, by decide⟩

/-- Claim C7: a `ConnectionError` raised at any of the fallible call sites of
a sync iteration — the server's single command-byte read, `__send`,
`__receive`, or the client's two command writes — is caught by the
`except ConnectionError` handler, which invokes `resume` and keeps looping;
when every failure the environment can produce is a connection error, no
iteration in either role ever escapes the loop, so the process never exits on
its own under network failure. -/
theorem c7_connection_errors_recovered (env : SyncEnv) :
    (env.cmdResult = .error .connectionError → syncIter 2 env = .looped true) ∧
    (env.cmdResult = .ok [115] → env.sendResult = .error .connectionError →
      syncIter 2 env = .looped true) ∧
    (env.cmdResult = .ok [114] → env.recvResult = .error .connectionError →
      syncIter 2 env = .looped true) ∧
    (env.sendSResult = .error .connectionError → syncIter 1 env = .looped true) ∧
    (env.sendSResult = .ok () → env.recvResult = .error .connectionError →
      syncIter 1 env = .looped true) ∧
    (env.sendSResult = .ok () → env.recvResult = .ok () →
      env.sendRResult = .error .connectionError → syncIter 1 env = .looped true) ∧
    (env.sendSResult = .ok () → env.recvResult = .ok () →
      env.sendRResult = .ok () → env.sendResult = .error .connectionError →
      syncIter 1 env = .looped true) ∧
    (∀ mode : Nat,
      (∀ e, serverBody env = .error e → e = .connectionError) →
      (∀ e, clientBody env = .error e → e = .connectionError) →
      ∀ e, syncIter mode env ≠ .crashed e) := by
  refine ⟨?_, ?_, ?_, ?_, ?_, ?_, ?_, ?_⟩
  · intro hc
    unfold syncIter serverBody
    rw [hc]
    rfl
  · intro hc hs
    unfold syncIter serverBody
    rw [hc]
    show (match (if ([115] : Bytes) = [115] then env.sendResult
                 else if ([115] : Bytes) = [114] then env.recvResult
                 else Except.ok ()) with
          | Except.ok _ => SyncOutcome.looped false
          | Except.error e =>
            if e = PyExn.connectionError then SyncOutcome.looped true
            else SyncOutcome.crashed e) = SyncOutcome.looped true
    rw [if_pos rfl, hs]
    rfl
  · intro hc hr
    unfold syncIter serverBody
    rw [hc]
    show (match (if ([114] : Bytes) = [115] then env.sendResult
                 else if ([114] : Bytes) = [114] then env.recvResult
                 else Except.ok ()) with
          | Except.ok _ => SyncOutcome.looped false
          | Except.error e =>
            if e = PyExn.connectionError then SyncOutcome.looped true
            else SyncOutcome.crashed e) = SyncOutcome.looped true
    rw [if_neg (by decide), if_pos rfl, hr]
    rfl
  · intro hs
    unfold syncIter clientBody
    rw [hs]
    rfl
  · intro hs hr
    unfold syncIter clientBody
    rw [hs, hr]
    rfl
  · intro hs hr hr2
    unfold syncIter clientBody
    rw [hs, hr, hr2]
    rfl
  · intro hs hr hr2 hsd
    unfold syncIter clientBody
    rw [hs, hr, hr2, hsd]
    rfl
  · intro mode hserver hclient e
    unfold syncIter
    by_cases h2 : mode = 2
    · rw [if_pos h2]
      cases hb : serverBody env with
      | ok u => simp
      | error e' =>
        have := hserver e' hb
        subst this
        simp
    · rw [if_neg h2]
      by_cases h1 : mode = 1
      · rw [if_pos h1]
        cases hb : clientBody env with
        | ok u => simp
        | error e' =>
          have := hclient e' hb
          subst this
          simp
      · rw [if_neg h1]
        simp

/-- Witness for C7 at concrete environments: a connection error on the
command read, on the server's send, and on the client's first command write
each produce a resumed loop iteration; and an all-healthy environment crashes
in neither role. -/
theorem c7_connection_errors_recovered_witness :
    syncIter 2 ⟨.error .connectionError, .ok (), .ok (), .ok (), .ok ()⟩ =
      .looped true ∧
    syncIter 2 ⟨.ok [115], .ok (), .ok (), .error .connectionError, .ok ()⟩ =
      .looped true ∧
    syncIter 1 ⟨.ok [], .error .connectionError, .ok (), .ok (), .ok ()⟩ =
      .looped true ∧
    (∀ e, syncIter 1 ⟨.ok [], .ok (), .ok (), .ok (), .ok ()⟩ ≠ .crashed e) :=
  ⟨(c7_connection_errors_recovered
      ⟨.error .connectionError, .ok (), .ok (), .ok (), .ok ()⟩).1 rfl,
   (c7_connection_errors_recovered
      ⟨.ok [115], .ok (), .ok (), .error .connectionError, .ok ()⟩).2.1 rfl rfl,
   (c7_connection_errors_recovered
      ⟨.ok [], .error .connectionError, .ok (), .ok (), .ok ()⟩).2.2.2.1 rfl,
   (c7_connection_errors_recovered
      ⟨.ok [], .ok (), .ok (), .ok (), .ok ()⟩).2.2.2.2.2.2.2 1
     (fun _ hb => Except.noConfusion hb)
     (fun _ hb => Except.noConfusion hb)⟩

/-- Claim C8: constructing a `Recorder` with the record file missing, or
present but holding unparseable JSON, succeeds without an exception, yields
the empty in-memory mapping, and never writes the file. -/
theorem c8_recorder_init_robust :
    recorderInit RecordFileState.missing = (some [], false) ∧
    recorderInit RecordFileState.invalidJson = (some [], false) :=
  ⟨rfl, rfl⟩

/-- Claim C9: in server mode a command other than `s` (115) or `r` (114) —
the empty read of a closed connection included — dispatches to neither
`__send` nor `__receive`: the recorder is handed back unchanged, no events
are produced, no script data is consumed, and the iteration completes
normally without invoking `resume`. -/
theorem c9_unknown_command_noop (fs : FS) (bufsize : Nat) (m : RecordMap)
    (chunks : List Chunk) (cmd : Bytes)
    (h1 : cmd ≠ [115]) (h2 : cmd ≠ [114]) :
    serverDispatch fs bufsize m chunks cmd = DispatchResult.noop m ∧
    syncIter 2 ⟨.ok cmd, .ok (), .ok (), .ok (), .ok ()⟩ = .looped false := by
  constructor
  · unfold serverDispatch
    rw [if_neg h1, if_neg h2]
  · simp [syncIter, serverBody, h1, h2]

/-- Witness for C9 at concrete inputs: the empty command of a cleanly closed
connection, on a recorder with one entry and pending script data. -/
theorem c9_unknown_command_noop_witness :
    serverDispatch fsW 2 [([102], ⟨true, some 5⟩)] [[1]] [] =
      DispatchResult.noop [([102], ⟨true, some 5⟩)] ∧
    syncIter 2 ⟨.ok [], .ok (), .ok (), .ok (), .ok ()⟩ = .looped false :=
  c9_unknown_command_noop fsW 2 [([102], ⟨true, some 5⟩)] [[1]] []
    (by decide) (by decide)

end PeerSync
